import Mathlib

/-!
Shallow embedding of the gym attendance system's storage and membership
logic (`storage.js` `StorageService`, `members.js` `MembersService`).

Timestamps are modelled as integers counting milliseconds, with the local
timezone offset folded in (so "local midnight" is a multiple of `oneDayMs`).
`Date.setHours(0,0,0,0)` becomes flooring to a multiple of `oneDayMs`, and
`Date.toDateString()` comparison becomes equality of floor-day indices.
Nullable fields (`lastCheckIn`, `lastCheckOut`, missing `membershipEndDate`)
are modelled as `Option`; browser local storage becomes an explicit
`StorageState` record threaded through the operations.
-/

namespace GymAttendance

/-- `1000 * 60 * 60 * 24`, the divisor used in `calculateDaysRemaining`. -/
def oneDayMs : Int := 1000 * 60 * 60 * 24

/-- Floor-day index of a timestamp: the calendar day `new Date(t)` falls on
(fixed-offset local time). -/
def dayIndex (t : Int) : Int := t.fdiv oneDayMs

/-- `d.setHours(0, 0, 0, 0)`: the timestamp normalized to midnight of its day. -/
def atMidnight (t : Int) : Int := oneDayMs * dayIndex t

/-- `a.toDateString() === b.toDateString()`: the two timestamps fall on the
same calendar day. -/
def sameCalendarDay (a b : Int) : Bool := dayIndex a == dayIndex b

/-- `Math.ceil` of the quotient of two integers (positive divisor), as used on
`diffTime / (1000*60*60*24)`. -/
def ceilDiv (a b : Int) : Int := -((-a).fdiv b)

/-- A member record as stored in the `gym_members` collection. -/
structure Member where
  id : String
  name : String
  email : String
  phone : String
  membershipType : String
  membershipStartDate : Option Int
  membershipEndDate : Option Int
  photo : String
  registrationDate : Option Int
  lastCheckIn : Option Int
  lastCheckOut : Option Int
deriving DecidableEq

/-- An attendance record as stored in the `gym_attendance` collection.
`date` is the local calendar day of `timestamp` (`toLocaleDateString`). -/
structure AttendanceRecord where
  id : String
  memberId : String
  type : String
  timestamp : Int
  date : Int
deriving DecidableEq

/-- The persisted local-storage state: `gym_members`, `gym_attendance`,
`member_id_counter`. -/
structure StorageState where
  members : List Member
  attendance : List AttendanceRecord
  counter : Nat
deriving DecidableEq

/-- `StorageService.init`: empty collections, counter at 1000. -/
def StorageState.empty : StorageState := ⟨[], [], 1000⟩

/-- `StorageService.getMemberById`: first member whose id matches, else null. -/
def getMemberById (s : StorageState) (id : String) : Option Member :=
  s.members.find? (fun m => m.id == id)

/-- `StorageService.calculateDaysRemaining`: ceiling of the difference of the
midnight-normalized end date and today divided by one day, clamped below at 0;
0 for a null member or a member without an end date. -/
def calculateDaysRemaining (member : Option Member) (now : Int) : Int :=
  match member with
  | none => 0
  | some m =>
    match m.membershipEndDate with
    | none => 0
    | some endDateMs =>
      let today := atMidnight now
      let endDate := atMidnight endDateMs
      let diffTime := endDate - today
      let diffDays := ceilDiv diffTime oneDayMs
      max 0 diffDays

/-- `StorageService.getMemberStatus`: `checked-in` when `lastCheckIn` is set
and `lastCheckOut` is not; else `checked-out` when the last check-out is from
today; else `not-checked-in`. -/
def getMemberStatus (member : Option Member) (now : Int) : String :=
  match member with
  | none => "not-checked-in"
  | some m =>
    if m.lastCheckIn.isSome && m.lastCheckOut.isNone then
      "checked-in"
    else
      match m.lastCheckOut with
      | some lastCheckOut =>
        if sameCalendarDay lastCheckOut now then "checked-out"
        else "not-checked-in"
      | none => "not-checked-in"

/-- `StorageService.generateMemberId`: increment the persisted counter and
return its new value rendered as a decimal string. -/
def generateMemberId (s : StorageState) : String × StorageState :=
  let counter := s.counter + 1
  (Nat.repr counter, { s with counter := counter })

/-- `StorageService.addMember`: spread the input record, then overwrite `id`
with a freshly generated id, `registrationDate` with now, and clear both
check fields; push onto the members collection. -/
def addMember (s : StorageState) (member : Member) (now : Int) :
    Member × StorageState :=
  let (newId, s1) := generateMemberId s
  let newMember : Member :=
    { member with
      id := newId
      registrationDate := some now
      lastCheckIn := none
      lastCheckOut := none }
  (newMember, { s1 with members := s1.members ++ [newMember] })

/-- The `findIndex` + in-place overwrite step of `StorageService.updateMember`:
replace the first member whose id matches by its image under `f`, returning
the merged record (or none when no id matches). -/
def updateFirst (f : Member → Member) (id : String) :
    List Member → Option Member × List Member
  | [] => (none, [])
  | m :: rest =>
    if m.id == id then (some (f m), f m :: rest)
    else
      let (r, rest2) := updateFirst f id rest
      (r, m :: rest2)

/-- `StorageService.updateMember` with the update object abstracted as a
shallow field overwrite `f`: null and no change when the id is unknown,
otherwise persist with the first matching member merged. -/
def updateMember (s : StorageState) (id : String) (f : Member → Member) :
    Option Member × StorageState :=
  match updateFirst f id s.members with
  | (none, _) => (none, s)
  | (some m, members2) => (some m, { s with members := members2 })

/-- `StorageService.checkIn`: null when the member is unknown; otherwise set
`lastCheckIn = now`, reset `lastCheckOut`, append a check-in attendance
record and return it. -/
def checkIn (s : StorageState) (memberId : String) (now : Int) :
    Option AttendanceRecord × StorageState :=
  match getMemberById s memberId with
  | none => (none, s)
  | some _ =>
    let checkInRecord : AttendanceRecord :=
      { id := toString now
        memberId := memberId
        type := "check-in"
        timestamp := now
        date := dayIndex now }
    let s1 := (updateMember s memberId
      (fun m => { m with lastCheckIn := some now, lastCheckOut := none })).2
    (some checkInRecord, { s1 with attendance := s1.attendance ++ [checkInRecord] })

/-- `StorageService.checkOut`: null when the member is unknown; otherwise set
`lastCheckOut = now` (leaving `lastCheckIn` alone), append a check-out
attendance record and return it. -/
def checkOut (s : StorageState) (memberId : String) (now : Int) :
    Option AttendanceRecord × StorageState :=
  match getMemberById s memberId with
  | none => (none, s)
  | some _ =>
    let checkOutRecord : AttendanceRecord :=
      { id := toString now
        memberId := memberId
        type := "check-out"
        timestamp := now
        date := dayIndex now }
    let s1 := (updateMember s memberId
      (fun m => { m with lastCheckOut := some now })).2
    (some checkOutRecord, { s1 with attendance := s1.attendance ++ [checkOutRecord] })

/-- `StorageService.deleteMember`: drop every member whose id matches exactly;
report false and leave storage untouched when nothing was dropped. -/
def deleteMember (s : StorageState) (id : String) : Bool × StorageState :=
  let filteredMembers := s.members.filter (fun m => m.id != id)
  if filteredMembers.length = s.members.length then (false, s)
  else (true, { s with members := filteredMembers })

/-- `endDate.setDate(endDate.getDate() + n)`: advance a timestamp by `n`
calendar days. -/
def addDays (t : Int) (n : Nat) : Int := t + n * oneDayMs

/-- The membership end date computed by the `switch (membershipType)` in
`MembersService.handleRegistration`. -/
def registrationEndDate (startDate : Int) (membershipType : String) : Int :=
  if membershipType == "monthly" then addDays startDate 30
  else if membershipType == "quarterly" then addDays startDate 90
  else if membershipType == "halfyearly" then addDays startDate 180
  else if membershipType == "annual" then addDays startDate 365
  else addDays startDate 30

/-- The ids handed out by `n` successive `generateMemberId` calls starting
from state `s`. -/
def generatedIds (s : StorageState) : Nat → List String
  | 0 => []
  | n + 1 =>
    let (id, s1) := generateMemberId s
    id :: generatedIds s1 n

/-- Numeric value of a decimal digit character (inverse of `Nat.digitChar`
on digits). -/
def charVal (c : Char) : Nat := c.toNat - 48

/-- Value of a decimal digit string read left to right on top of `init`. -/
def decimalVal (init : Nat) (l : List Char) : Nat :=
  l.foldl (fun acc c => acc * 10 + charVal c) init

/-- A concrete member used to exercise the operation contracts. -/
def sampleMember : Member :=
  { id := "1001"
    name := "Asha"
    email := "asha@example.com"
    phone := "555"
    membershipType := "quarterly"
    membershipStartDate := some 0
    membershipEndDate := some (90 * oneDayMs)
    photo := "img/default-profile.png"
    registrationDate := some 0
    lastCheckIn := none
    lastCheckOut := none }

/-- A concrete storage state holding `sampleMember`. -/
def sampleState : StorageState :=
  { members := [sampleMember], attendance := [], counter := 1001 }

/-! ### Day arithmetic -/

theorem oneDayMs_pos : 0 < oneDayMs := by norm_num [oneDayMs]

theorem dayIndex_mono {a b : Int} (h : a ≤ b) : dayIndex a ≤ dayIndex b := by
  unfold dayIndex
  rw [Int.fdiv_eq_ediv _ oneDayMs_pos.le, Int.fdiv_eq_ediv _ oneDayMs_pos.le]
  exact Int.ediv_le_ediv oneDayMs_pos h

theorem atMidnight_sub (e t : Int) :
    atMidnight e - atMidnight t = oneDayMs * (dayIndex e - dayIndex t) := by
  unfold atMidnight
  ring

theorem ceilDiv_mul_self (k : Int) : ceilDiv (oneDayMs * k) oneDayMs = k := by
  unfold ceilDiv
  rw [show -(oneDayMs * k) = oneDayMs * (-k) by ring,
    Int.mul_fdiv_cancel_left _ oneDayMs_pos.ne', neg_neg]

/-- On a member with an end date, the remaining-day count is the clamped
difference of floor-day indices. -/
theorem calculateDaysRemaining_some (m : Member) (e now : Int)
    (he : m.membershipEndDate = some e) :
    calculateDaysRemaining (some m) now = max 0 (dayIndex e - dayIndex now) := by
  simp only [calculateDaysRemaining, he, atMidnight_sub, ceilDiv_mul_self]

/-! ### Claim theorems: remaining days and status -/

/-- C2: `calculateDaysRemaining` equals the ceiling of the midnight-normalized
date difference divided by one day, floored at 0, hence is a nonnegative
integer; a null member or a member without an end date yields 0. -/
theorem calculateDaysRemaining_spec (m : Member) (now : Int) :
    0 ≤ calculateDaysRemaining (some m) now ∧
    calculateDaysRemaining none now = 0 ∧
    (m.membershipEndDate = none → calculateDaysRemaining (some m) now = 0) ∧
    (∀ e, m.membershipEndDate = some e →
      calculateDaysRemaining (some m) now =
        max 0 ⌈((atMidnight e - atMidnight now : ℤ) : ℚ) / ((oneDayMs : ℤ) : ℚ)⌉) := by
  refine ⟨?_, rfl, ?_, ?_⟩
  · cases he : m.membershipEndDate with
    | none => simp [calculateDaysRemaining, he]
    | some e =>
      rw [calculateDaysRemaining_some m e now he]
      exact le_max_left 0 _
  · intro h
    simp [calculateDaysRemaining, h]
  · intro e he
    rw [calculateDaysRemaining_some m e now he, atMidnight_sub]
    congr 1
    have hcast : ((oneDayMs * (dayIndex e - dayIndex now) : ℤ) : ℚ) / ((oneDayMs : ℤ) : ℚ)
        = ((dayIndex e - dayIndex now : ℤ) : ℚ) := by
      have hD : ((oneDayMs : ℤ) : ℚ) ≠ 0 := by norm_num [oneDayMs]
      push_cast
      field_simp
    rw [hcast, Int.ceil_intCast]

theorem calculateDaysRemaining_spec_witness :
    calculateDaysRemaining (some sampleMember) (31 * oneDayMs + 500) =
      max 0 ⌈((atMidnight (90 * oneDayMs) - atMidnight (31 * oneDayMs + 500) : ℤ) : ℚ) /
        ((oneDayMs : ℤ) : ℚ)⌉ ∧
    calculateDaysRemaining (some sampleMember) (31 * oneDayMs + 500) = 59 :=
  ⟨(calculateDaysRemaining_spec sampleMember (31 * oneDayMs + 500)).2.2.2
      (90 * oneDayMs) rfl,
   by decide⟩

/-- C7: as "today" advances the remaining-day count never increases, and it is
never negative at either date. -/
theorem calculateDaysRemaining_antitone (m : Option Member) (d1 d2 : Int)
    (h : d1 ≤ d2) :
    calculateDaysRemaining m d2 ≤ calculateDaysRemaining m d1 ∧
    0 ≤ calculateDaysRemaining m d1 ∧ 0 ≤ calculateDaysRemaining m d2 := by
  match m with
  | none => simp [calculateDaysRemaining]
  | some mem =>
    cases he : mem.membershipEndDate with
    | none => simp [calculateDaysRemaining, he]
    | some e =>
      rw [calculateDaysRemaining_some mem e d1 he, calculateDaysRemaining_some mem e d2 he]
      have hd := dayIndex_mono h
      exact ⟨max_le_max le_rfl (by omega), le_max_left _ _, le_max_left _ _⟩

theorem calculateDaysRemaining_antitone_witness :
    calculateDaysRemaining (some sampleMember) (31 * oneDayMs) ≤
      calculateDaysRemaining (some sampleMember) oneDayMs ∧
    0 ≤ calculateDaysRemaining (some sampleMember) oneDayMs :=
  ⟨(calculateDaysRemaining_antitone (some sampleMember) oneDayMs (31 * oneDayMs)
      (by decide)).1,
   (calculateDaysRemaining_antitone (some sampleMember) oneDayMs (31 * oneDayMs)
      (by decide)).2.1⟩

/-- C9: a null member argument yields `not-checked-in` rather than failing, so
the status derivation is total over member-or-null inputs. -/
theorem getMemberStatus_none_total (now : Int) :
    getMemberStatus none now = "not-checked-in" := rfl

/-- C1: the status is `checked-in` exactly when `lastCheckIn` is set and
`lastCheckOut` is absent; otherwise it is `checked-out` exactly when the last
check-out falls on today's calendar day; in every remaining case it is
`not-checked-in`. -/
theorem getMemberStatus_cases (m : Member) (now : Int) :
    (getMemberStatus (some m) now = "checked-in" ↔
      m.lastCheckIn.isSome ∧ m.lastCheckOut = none) ∧
    (¬(m.lastCheckIn.isSome ∧ m.lastCheckOut = none) →
      (getMemberStatus (some m) now = "checked-out" ↔
        ∃ t, m.lastCheckOut = some t ∧ dayIndex t = dayIndex now)) ∧
    (¬(m.lastCheckIn.isSome ∧ m.lastCheckOut = none) →
      (∀ t, m.lastCheckOut = some t → dayIndex t ≠ dayIndex now) →
      getMemberStatus (some m) now = "not-checked-in") := by
  obtain ⟨mid, mname, memail, mphone, mtype, msd, med, mphoto, mrd, ci, co⟩ := m
  cases ci with
  | none =>
    cases co with
    | none => simp [getMemberStatus]
    | some t =>
      by_cases h : dayIndex t = dayIndex now <;>
        simp [getMemberStatus, sameCalendarDay, beq_iff_eq, h]
  | some tin =>
    cases co with
    | none => simp [getMemberStatus]
    | some t =>
      by_cases h : dayIndex t = dayIndex now <;>
        simp [getMemberStatus, sameCalendarDay, beq_iff_eq, h]

theorem getMemberStatus_cases_witness :
    getMemberStatus (some { sampleMember with lastCheckIn := some 5 }) 6 =
      "checked-in" ∧
    getMemberStatus
      (some { sampleMember with lastCheckIn := some 5, lastCheckOut := some 6 }) 7 =
      "checked-out" :=
  ⟨(getMemberStatus_cases { sampleMember with lastCheckIn := some 5 } 6).1.mpr
      ⟨rfl, rfl⟩,
   ((getMemberStatus_cases
      { sampleMember with lastCheckIn := some 5, lastCheckOut := some 6 } 7).2.1
      (by simp)).mpr ⟨6, rfl, by decide⟩⟩

/-- C5: the registration end date is the start date advanced by exactly 30,
90, 180 or 365 days for the four known membership types, and by the 30-day
default for any unknown type. -/
theorem registrationEndDate_spec (startDate : Int) (mt : String) :
    (mt = "monthly" → registrationEndDate startDate mt - startDate = 30 * oneDayMs) ∧
    (mt = "quarterly" → registrationEndDate startDate mt - startDate = 90 * oneDayMs) ∧
    (mt = "halfyearly" → registrationEndDate startDate mt - startDate = 180 * oneDayMs) ∧
    (mt = "annual" → registrationEndDate startDate mt - startDate = 365 * oneDayMs) ∧
    (mt ≠ "monthly" → mt ≠ "quarterly" → mt ≠ "halfyearly" → mt ≠ "annual" →
      registrationEndDate startDate mt - startDate = 30 * oneDayMs) := by
  refine ⟨?_, ?_, ?_, ?_, ?_⟩
  · intro h
    subst h
    simp [registrationEndDate, addDays]
  · intro h
    subst h
    simp [registrationEndDate, addDays]
  · intro h
    subst h
    simp [registrationEndDate, addDays]
  · intro h
    subst h
    simp [registrationEndDate, addDays]
  · intro h1 h2 h3 h4
    simp [registrationEndDate, addDays, beq_iff_eq, h1, h2, h3, h4]

theorem registrationEndDate_spec_witness :
    registrationEndDate 0 "quarterly" - 0 = 90 * oneDayMs ∧
    registrationEndDate 0 "weekly" - 0 = 30 * oneDayMs :=
  ⟨(registrationEndDate_spec 0 "quarterly").2.1 rfl,
   (registrationEndDate_spec 0 "weekly").2.2.2.2
      (by decide) (by decide) (by decide) (by decide)⟩

/-- C8: deleting an id with no exact match reports false and leaves storage
untouched; deleting a present id drops exactly the matching members and
reports true. -/
theorem deleteMember_spec (s : StorageState) (id : String) :
    ((∀ m ∈ s.members, m.id ≠ id) → deleteMember s id = (false, s)) ∧
    ((∃ m ∈ s.members, m.id = id) →
      deleteMember s id =
        (true, { s with members := s.members.filter (fun m => m.id != id) })) := by
  constructor
  · intro h
    have hfil : s.members.filter (fun m => m.id != id) = s.members :=
      List.filter_eq_self.mpr (fun m hm => by simpa [bne_iff_ne] using h m hm)
    simp [deleteMember, hfil]
  · rintro ⟨m, hm, hid⟩
    have hlt : (s.members.filter (fun m => m.id != id)).length < s.members.length :=
      List.length_filter_lt_length_iff_exists.mpr ⟨m, hm, by simp [hid]⟩
    simp [deleteMember, hlt.ne]

theorem deleteMember_spec_witness :
    deleteMember sampleState "9999" = (false, sampleState) ∧
    deleteMember sampleState "1001" =
      (true, { sampleState with
        members := sampleState.members.filter (fun m => m.id != "1001") }) :=
  ⟨(deleteMember_spec sampleState "9999").1 (by decide),
   (deleteMember_spec sampleState "1001").2 ⟨sampleMember, by decide, rfl⟩⟩

/-- C10: `addMember` overwrites any caller-supplied `id`, `registrationDate`,
`lastCheckIn` and `lastCheckOut`: the stored and returned record carries the
freshly generated id, registration date now and cleared check fields, keeps
every other input field, and is the single record appended to the members
collection. -/
theorem addMember_spec (s : StorageState) (input : Member) (now : Int) :
    (addMember s input now).1 =
      { input with
        id := (generateMemberId s).1
        registrationDate := some now
        lastCheckIn := none
        lastCheckOut := none } ∧
    (addMember s input now).1.id = Nat.repr (s.counter + 1) ∧
    (addMember s input now).1.registrationDate = some now ∧
    (addMember s input now).1.lastCheckIn = none ∧
    (addMember s input now).1.lastCheckOut = none ∧
    (addMember s input now).1.name = input.name ∧
    (addMember s input now).1.email = input.email ∧
    (addMember s input now).1.phone = input.phone ∧
    (addMember s input now).1.membershipType = input.membershipType ∧
    (addMember s input now).1.membershipStartDate = input.membershipStartDate ∧
    (addMember s input now).1.membershipEndDate = input.membershipEndDate ∧
    (addMember s input now).1.photo = input.photo ∧
    (addMember s input now).2 =
      { members := s.members ++ [(addMember s input now).1]
        attendance := s.attendance
        counter := s.counter + 1 } :=
  ⟨rfl, rfl, rfl, rfl, rfl, rfl, rfl, rfl, rfl, rfl, rfl, rfl, rfl⟩

/-! ### Lookup and first-match update -/

theorem getMemberById_eq_none (s : StorageState) (id : String)
    (h : ∀ m ∈ s.members, m.id ≠ id) : getMemberById s id = none := by
  simp only [getMemberById, List.find?_eq_none, beq_iff_eq]
  exact h

theorem getMemberById_isSome (s : StorageState) (id : String)
    (h : ∃ m ∈ s.members, m.id = id) : ∃ m0, getMemberById s id = some m0 := by
  have : (getMemberById s id).isSome := by
    simp only [getMemberById, List.find?_isSome, beq_iff_eq]
    exact h
  exact Option.isSome_iff_exists.mp this

/-- When some member matches, `updateFirst` rewrites exactly the first match
and keeps every other entry, in order. -/
theorem updateFirst_of_mem (f : Member → Member) (id : String) :
    ∀ l : List Member, (∃ m ∈ l, m.id = id) →
      ∃ pre mem post, l = pre ++ mem :: post ∧ (∀ m' ∈ pre, m'.id ≠ id) ∧
        mem.id = id ∧
        updateFirst f id l = (some (f mem), pre ++ f mem :: post) := by
  intro l
  induction l with
  | nil =>
    rintro ⟨m, hm, _⟩
    exact absurd hm (List.not_mem_nil m)
  | cons a rest ih =>
    intro hex
    by_cases ha : a.id = id
    · exact ⟨[], a, rest, rfl, by simp, ha, by simp [updateFirst, beq_iff_eq, ha]⟩
    · have hex2 : ∃ m ∈ rest, m.id = id := by
        obtain ⟨m, hm, hid⟩ := hex
        rcases List.mem_cons.mp hm with h | h
        · exact absurd (h ▸ hid) ha
        · exact ⟨m, h, hid⟩
      obtain ⟨pre, mem, post, hl, hpre, hmem, hupd⟩ := ih hex2
      refine ⟨a :: pre, mem, post, by simp [hl], ?_, hmem, ?_⟩
      · intro m' hm'
        rcases List.mem_cons.mp hm' with h | h
        · exact h ▸ ha
        · exact hpre m' h
      · simp [updateFirst, beq_iff_eq, ha, hupd]

/-! ### Claim theorems: check-in and check-out -/

/-- C3: checking in an unknown id yields null and leaves storage untouched;
checking in an existing member sets its `lastCheckIn` to now, clears its
`lastCheckOut`, appends exactly one check-in record with timestamp now, and
returns that record. -/
theorem checkIn_spec (s : StorageState) (memberId : String) (now : Int) :
    ((∀ m ∈ s.members, m.id ≠ memberId) → checkIn s memberId now = (none, s)) ∧
    ((∃ m ∈ s.members, m.id = memberId) →
      ∃ r pre mem post,
        s.members = pre ++ mem :: post ∧
        (∀ m' ∈ pre, m'.id ≠ memberId) ∧
        mem.id = memberId ∧
        r.type = "check-in" ∧ r.timestamp = now ∧ r.memberId = memberId ∧
        checkIn s memberId now =
          (some r,
            { members :=
                pre ++ { mem with lastCheckIn := some now, lastCheckOut := none } :: post
              attendance := s.attendance ++ [r]
              counter := s.counter })) := by
  constructor
  · intro h
    simp [checkIn, getMemberById_eq_none s memberId h]
  · intro hex
    obtain ⟨m0, hm0⟩ := getMemberById_isSome s memberId hex
    obtain ⟨pre, mem, post, hl, hpre, hmem, hupd⟩ :=
      updateFirst_of_mem
        (fun m => { m with lastCheckIn := some now, lastCheckOut := none })
        memberId s.members hex
    refine ⟨⟨toString now, memberId, "check-in", now, dayIndex now⟩,
      pre, mem, post, hl, hpre, hmem, rfl, rfl, rfl, ?_⟩
    simp [checkIn, hm0, updateMember, hupd]

theorem checkIn_spec_witness :
    checkIn StorageState.empty "1001" 5 = (none, StorageState.empty) ∧
    (∃ r pre mem post,
      sampleState.members = pre ++ mem :: post ∧
      (∀ m' ∈ pre, m'.id ≠ "1001") ∧
      mem.id = "1001" ∧
      r.type = "check-in" ∧ r.timestamp = 5 ∧ r.memberId = "1001" ∧
      checkIn sampleState "1001" 5 =
        (some r,
          { members :=
              pre ++ { mem with lastCheckIn := some 5, lastCheckOut := none } :: post
            attendance := sampleState.attendance ++ [r]
            counter := sampleState.counter })) :=
  ⟨(checkIn_spec StorageState.empty "1001" 5).1 (by simp [StorageState.empty]),
   (checkIn_spec sampleState "1001" 5).2 ⟨sampleMember, by simp [sampleState], rfl⟩⟩

/-- C4: checking out an unknown id yields null and changes nothing; checking
out an existing member overwrites only that member's `lastCheckOut` with now
(every other field, in particular `lastCheckIn`, and every other member kept),
appends one check-out record, and returns it. -/
theorem checkOut_spec (s : StorageState) (memberId : String) (now : Int) :
    ((∀ m ∈ s.members, m.id ≠ memberId) → checkOut s memberId now = (none, s)) ∧
    ((∃ m ∈ s.members, m.id = memberId) →
      ∃ r pre mem post,
        s.members = pre ++ mem :: post ∧
        (∀ m' ∈ pre, m'.id ≠ memberId) ∧
        mem.id = memberId ∧
        r.type = "check-out" ∧ r.timestamp = now ∧ r.memberId = memberId ∧
        checkOut s memberId now =
          (some r,
            { members := pre ++ { mem with lastCheckOut := some now } :: post
              attendance := s.attendance ++ [r]
              counter := s.counter })) := by
  constructor
  · intro h
    simp [checkOut, getMemberById_eq_none s memberId h]
  · intro hex
    obtain ⟨m0, hm0⟩ := getMemberById_isSome s memberId hex
    obtain ⟨pre, mem, post, hl, hpre, hmem, hupd⟩ :=
      updateFirst_of_mem (fun m => { m with lastCheckOut := some now })
        memberId s.members hex
    refine ⟨⟨toString now, memberId, "check-out", now, dayIndex now⟩,
      pre, mem, post, hl, hpre, hmem, rfl, rfl, rfl, ?_⟩
    simp [checkOut, hm0, updateMember, hupd]

theorem checkOut_spec_witness :
    checkOut StorageState.empty "1001" 6 = (none, StorageState.empty) ∧
    (∃ r pre mem post,
      sampleState.members = pre ++ mem :: post ∧
      (∀ m' ∈ pre, m'.id ≠ "1001") ∧
      mem.id = "1001" ∧
      r.type = "check-out" ∧ r.timestamp = 6 ∧ r.memberId = "1001" ∧
      checkOut sampleState "1001" 6 =
        (some r,
          { members := pre ++ { mem with lastCheckOut := some 6 } :: post
            attendance := sampleState.attendance ++ [r]
            counter := sampleState.counter })) :=
  ⟨(checkOut_spec StorageState.empty "1001" 6).1 (by simp [StorageState.empty]),
   (checkOut_spec sampleState "1001" 6).2 ⟨sampleMember, by simp [sampleState], rfl⟩⟩

/-! ### Decimal rendering of counters -/

theorem decimalVal_nil (init : Nat) : decimalVal init [] = init := rfl

theorem decimalVal_cons (init : Nat) (c : Char) (l : List Char) :
    decimalVal init (c :: l) = decimalVal (init * 10 + charVal c) l := rfl

theorem charVal_digitChar {d : Nat} (h : d < 10) :
    charVal (Nat.digitChar d) = d := by
  interval_cases d <;> decide

/-- Reading back the digit characters produced by `Nat.toDigitsCore`
recovers the rendered number. -/
theorem decimalVal_toDigitsCore :
    ∀ fuel n : Nat, n < fuel → ∀ (init : Nat) (ds : List Char),
      ∃ k, 0 < k ∧
        decimalVal init (Nat.toDigitsCore 10 fuel n ds) =
          decimalVal (init * 10 ^ k + n) ds := by
  intro fuel
  induction fuel with
  | zero => omega
  | succ fuel ih =>
    intro n hn init ds
    by_cases h : n / 10 = 0
    · have hn10 : n < 10 := by omega
      refine ⟨1, Nat.one_pos, ?_⟩
      simp only [Nat.toDigitsCore, h, if_pos]
      rw [decimalVal_cons, charVal_digitChar (Nat.mod_lt n (by norm_num))]
      have hmod : n % 10 = n := Nat.mod_eq_of_lt hn10
      rw [hmod]
      norm_num
    · obtain ⟨k, hk, hval⟩ :=
        ih (n / 10) (by omega) init (Nat.digitChar (n % 10) :: ds)
      refine ⟨k + 1, by omega, ?_⟩
      simp only [Nat.toDigitsCore, h, if_false]
      rw [hval, decimalVal_cons]
      congr 1
      have hmod := Nat.div_add_mod n 10
      have hcv : charVal (Nat.digitChar (n % 10)) = n % 10 :=
        charVal_digitChar (Nat.mod_lt n (by norm_num))
      rw [hcv]
      ring_nf
      omega

theorem decimalVal_toDigits (n : Nat) : decimalVal 0 (Nat.toDigits 10 n) = n := by
  obtain ⟨k, hk, h⟩ := decimalVal_toDigitsCore (n + 1) n (Nat.lt_succ_self n) 0 []
  simpa [Nat.toDigits, decimalVal_nil] using h

/-- Distinct counters render to distinct id strings. -/
theorem natRepr_injective : Function.Injective Nat.repr := by
  intro a b h
  have hd : Nat.toDigits 10 a = Nat.toDigits 10 b := by
    have h2 := congrArg String.data h
    simpa [Nat.repr, List.asString] using h2
  have h3 := congrArg (decimalVal 0) hd
  rwa [decimalVal_toDigits, decimalVal_toDigits] at h3

/-- The i-th id handed out starting from state `s` renders counter value
`s.counter + 1 + i`. -/
theorem generatedIds_get (s : StorageState) :
    ∀ n i : Nat, i < n →
      (generatedIds s n)[i]? = some (Nat.repr (s.counter + 1 + i)) := by
  intro n
  induction n generalizing s with
  | zero => omega
  | succ n ih =>
    intro i hi
    cases i with
    | zero => simp [generatedIds, generateMemberId]
    | succ i =>
      have h := ih { s with counter := s.counter + 1 } i (by omega)
      simp only [generatedIds, generateMemberId, List.getElem?_cons_succ]
      rw [h]
      show some (Nat.repr (s.counter + 1 + 1 + i)) =
        some (Nat.repr (s.counter + 1 + (i + 1)))
      congr 2
      omega

/-- C6: each call increments the persisted counter by one and returns the new
value rendered as a string, so from the initial counter 1000 successive calls
return numerically strictly increasing, never-repeating id strings, all for
counter values strictly above 1000. -/
theorem generateMemberId_spec :
    (∀ s : StorageState, generateMemberId s =
        (Nat.repr (s.counter + 1), { s with counter := s.counter + 1 })) ∧
    (∀ n i j : Nat, i < j → j < n →
      (generatedIds StorageState.empty n)[i]? = some (Nat.repr (1001 + i)) ∧
      (generatedIds StorageState.empty n)[j]? = some (Nat.repr (1001 + j)) ∧
      1000 < 1001 + i ∧ 1001 + i < 1001 + j ∧
      Nat.repr (1001 + i) ≠ Nat.repr (1001 + j)) := by
  constructor
  · intro s
    rfl
  · intro n i j hij hjn
    have hgi := generatedIds_get StorageState.empty n i (by omega)
    have hgj := generatedIds_get StorageState.empty n j hjn
    have ei : StorageState.empty.counter + 1 + i = 1001 + i := by
      simp [StorageState.empty]
    have ej : StorageState.empty.counter + 1 + j = 1001 + j := by
      simp [StorageState.empty]
    refine ⟨by rw [hgi, ei], by rw [hgj, ej], by omega, by omega, fun heq => ?_⟩
    have := natRepr_injective heq
    omega

theorem generateMemberId_spec_witness :
    (generatedIds StorageState.empty 2)[0]? = some (Nat.repr 1001) ∧
    (generatedIds StorageState.empty 2)[1]? = some (Nat.repr 1002) ∧
    Nat.repr 1001 ≠ Nat.repr 1002 :=
  ⟨(generateMemberId_spec.2 2 0 1 (by decide) (by decide)).1,
   (generateMemberId_spec.2 2 0 1 (by decide) (by decide)).2.1,
   (generateMemberId_spec.2 2 0 1 (by decide) (by decide)).2.2.2.2⟩

end GymAttendance
